import Mathlib

/-!
Shallow embedding of the multi-agent visualization workflow
(`main.py`, `api.py`): the workflow state, the four nodes of the
generate → execute → evaluate → decide cycle, the sandboxed executor,
the evaluation parser, the code extractor, and the job supervisor's
cancel / background-task operations. Machine-level scores are modelled
as rationals; the language model and the operating system are modelled
as oracles supplying the outcome of each external call, since the code
only branches on those outcomes.
-/

namespace MultiAgent

/-- Outcome of the most recent sandbox run, mirroring the dict built by
`execute_code_safely` in `main.py` (keys `status`, `returncode`,
`stdout`, `stderr`, `files_created`). -/
structure ExecResult where
  status : String
  returncode : Int
  stdout : String
  stderr : String
  files_created : List String
  deriving DecidableEq, Repr

/-- The parts of a critic evaluation dict that the workflow reads.
`parse_json_evaluation` may return an arbitrary parsed object, so every
field is optional; `should_continue` reads `average_score` with a
default of `0`, exactly as `state.get("critic_evaluation", {}).get("average_score", 0)`. -/
structure CriticEval where
  average_score : Option Rat
  feedback : Option String
  approve : Option Bool
  deriving DecidableEq, Repr

/-- `VisualizationState` from `main.py`: the mutable record threaded
through one job's cycle. `execution_result` and `critic_evaluation`
start as the empty dict, modelled as `none`. -/
structure VisualizationState where
  user_request : String
  dataset_url : String
  iteration : Nat
  max_iterations : Nat
  generated_code : String
  execution_result : Option ExecResult
  critic_evaluation : Option CriticEval
  final_viz_path : String
  status : String
  error_message : String
  deriving DecidableEq, Repr

/-- The average score `should_continue` reads:
`state.get("critic_evaluation", {}).get("average_score", 0)`. -/
def avgScoreOf (s : VisualizationState) : Rat :=
  match s.critic_evaluation with
  | none => 0
  | some e => e.average_score.getD 0

/-- The execution-success test `should_continue` performs:
`state.get("execution_result", {}).get("status") == "success"`. -/
def execSuccessOf (s : VisualizationState) : Bool :=
  match s.execution_result with
  | none => false
  | some r => r.status = "success"

/-- `should_continue` from `main.py` (lines 298-316): the convergence
policy. It both mutates the state (sets `status`, and on a quality stop
also `final_viz_path`) and returns the routing label `"end"` or
`"coder"`; we return the pair. -/
def should_continue (s : VisualizationState) : VisualizationState × String :=
  if s.max_iterations ≤ s.iteration then
    ({ s with status := "completed" }, "end")
  else if 8 ≤ avgScoreOf s ∧ execSuccessOf s = true then
    ({ s with status := "completed", final_viz_path := "visualization.png" }, "end")
  else
    (s, "coder")

/-- Outcome of the one external step inside `execute_code_safely`: the
`subprocess.run` call either returns with an exit code and captured
streams, raises `subprocess.TimeoutExpired`, or raises some other
exception (e.g. a failure to launch the interpreter). -/
inductive ExecOutcome where
  | exited (rc : Int) (out err : String)
  | timedOut
  | launchError (msg : String)
  deriving DecidableEq, Repr

/-- `execute_code_safely` from `main.py` (lines 54-98). The scratch
file is written first; we return, next to the `ExecResult` dict, a
Boolean recording whether the scratch file was removed before the
function returned. Following the source: the `os.remove` cleanup sits
on the normal path only, so the two exception handlers
(`TimeoutExpired` and the generic `Exception`) return with the file
still present. -/
def execute_code_safely (o : ExecOutcome) : ExecResult × Bool :=
  match o with
  | .exited rc out err =>
      ({ status := if rc = 0 then "success" else "error",
         returncode := rc, stdout := out, stderr := err,
         files_created := [] }, true)
  | .timedOut =>
      ({ status := "timeout", returncode := -1, stdout := "",
         stderr := "Code execution exceeded 30-second timeout",
         files_created := [] }, false)
  | .launchError msg =>
      ({ status := "error", returncode := -1, stdout := "",
         stderr := msg, files_created := [] }, false)

/-- The opening brace character. -/
def lbrace : Char := Char.ofNat 123

/-- The closing brace character. -/
def rbrace : Char := Char.ofNat 125

/-- The six integer quality scores of the fallback evaluation built by
`parse_json_evaluation` in `main.py`. -/
structure Scores where
  bugs : Nat
  transformation : Nat
  compliance : Nat
  type : Nat
  encoding : Nat
  aesthetics : Nat
  deriving DecidableEq, Repr

/-- The shape of the fixed fallback evaluation dict of
`parse_json_evaluation`. -/
structure EvaluationResult where
  scores : Scores
  average_score : Rat
  feedback : String
  approve : Bool
  deriving DecidableEq, Repr

/-- The fixed fallback dict returned by `parse_json_evaluation` when no
JSON object can be extracted. -/
def fallbackEvaluation : EvaluationResult :=
  { scores := { bugs := 5, transformation := 5, compliance := 5,
                type := 5, encoding := 5, aesthetics := 5 },
    average_score := 5, feedback := "Unable to parse evaluation",
    approve := false }

/-- The span matched by `re.search(r"\x7b.*\x7d", text, re.DOTALL)`:
from the first opening brace to the last closing brace at or after it,
or `none` when the pattern does not match. -/
def greedyBraceSpan (text : List Char) : Option (List Char) :=
  let s := text.dropWhile (fun c => ¬ c = lbrace)
  let t := (s.reverse.dropWhile (fun c => ¬ c = rbrace)).reverse
  if t.isEmpty then none else some t

/-- Result of `parse_json_evaluation`: either the object produced by
`json.loads` on the matched span, or the fixed fallback dict. -/
inductive ParseOutcome (α : Type) where
  | parsed (a : α)
  | fallback (e : EvaluationResult)
  deriving DecidableEq, Repr

/-- `parse_json_evaluation` from `main.py` (lines 101-126),
parameterized by the `json.loads` library call `jp` (returning `none`
when it raises `JSONDecodeError`): search for the greedy brace span and
try to parse exactly that one span; on any failure return the fixed
fallback. -/
def parse_json_evaluation {α : Type} (jp : List Char → Option α)
    (text : List Char) : ParseOutcome α :=
  match greedyBraceSpan text with
  | some sp =>
      match jp sp with
      | some a => .parsed a
      | none => .fallback fallbackEvaluation
  | none => .fallback fallbackEvaluation

/-- All contiguous segments (infix sublists) of a list: every prefix of
every suffix. Used to quantify over the brace-delimited spans of an
input text. -/
def segmentsOf (l : List Char) : List (List Char) :=
  (l.tails.map List.inits).flatten

/-- First-occurrence splitting: `splitAtSub pat text = some (b, a)`
when `text = b ++ pat ++ a` with `b` shortest, `none` when `pat` does
not occur in `text`. This is the leftmost-match primitive underlying
the regex searches of `extract_code_block`. -/
def splitAtSub (pat : List Char) : List Char → Option (List Char × List Char)
  | [] => if pat.isEmpty then some ([], []) else none
  | c :: cs =>
      if pat.isPrefixOf (c :: cs) then some ([], (c :: cs).drop pat.length)
      else (splitAtSub pat cs).map (fun p => (c :: p.1, p.2))

/-- The tagged fence opener of the first pattern of
`extract_code_block`. -/
def pyOpen : List Char := "```python\n".toList

/-- The untagged fence opener of the second pattern of
`extract_code_block`. -/
def genOpen : List Char := "```\n".toList

/-- The closing-fence sequence shared by both patterns. -/
def closeFence : List Char := "\n```".toList

/-- The first (leftmost, non-greedy) match of
`opener ++ (.*?) ++ closeFence` in `text`: find the first occurrence of
`opener`, then the first occurrence of `closeFence` after it, and
return the characters in between. -/
def matchFence (opener text : List Char) : Option (List Char) :=
  (splitAtSub opener text).bind fun p =>
    (splitAtSub closeFence p.2).map fun q => q.1

/-- `extract_code_block` from `main.py` (lines 36-51): first python-
tagged fenced block, else first untagged fenced block, else the input
unchanged. -/
def extract_code_block (text : List Char) : List Char :=
  match matchFence pyOpen text with
  | some c => c
  | none =>
      match matchFence genOpen text with
      | some c => c
      | none => text

/-- Outcome of one `llm.invoke` call: the response text, or the raised
exception's message. -/
inductive LLMResult where
  | ok (text : String)
  | err (msg : String)
  deriving DecidableEq, Repr

/-- Outcome of one critic pass, abstracting `llm.invoke` followed by
`parse_json_evaluation`: on success, the evaluation dict stored into
the state (which may itself be the parser's fallback); on a raised
exception, the message. -/
inductive CriticResult where
  | ok (e : CriticEval)
  | err (msg : String)
  deriving DecidableEq, Repr

/-- `coder_node` from `main.py` (lines 152-180), with the `llm.invoke`
outcome supplied as `r`: on success store the extracted code, increment
`iteration`, set `status = "in_progress"`; on failure set
`error_message` and `status = "failed"` (and nothing else). -/
def coder_node (r : LLMResult) (s : VisualizationState) : VisualizationState :=
  match r with
  | .ok text =>
      { s with generated_code := (extract_code_block text.toList).asString,
               iteration := s.iteration + 1,
               status := "in_progress" }
  | .err msg =>
      { s with error_message := "Coder Agent Error: " ++ msg,
               status := "failed" }

/-- `executor_node` from `main.py` (lines 187-204), with the
subprocess outcome supplied as `o`: store the execution result; when
its status is not `"success"`, also record its stderr as the error
message. -/
def executor_node (o : ExecOutcome) (s : VisualizationState) : VisualizationState :=
  let r := (execute_code_safely o).1
  if ¬ r.status = "success" then
    { s with execution_result := some r, error_message := r.stderr }
  else
    { s with execution_result := some r }

/-- The degraded evaluation `critic_node` substitutes when its
`llm.invoke` raises: all scores 3, average 3.0, approve false. Only the
fields the rest of the workflow reads are modelled. -/
def degradedEval (msg : String) : CriticEval :=
  { average_score := some 3,
    feedback := some ("Critic evaluation failed: " ++ msg),
    approve := some false }

/-- `critic_node` from `main.py` (lines 250-291), with the combined
invoke-and-parse outcome supplied as `r`: store the evaluation; on a
raised exception store the degraded evaluation and set
`error_message`. -/
def critic_node (r : CriticResult) (s : VisualizationState) : VisualizationState :=
  match r with
  | .ok e => { s with critic_evaluation := some e }
  | .err msg =>
      { s with critic_evaluation := some (degradedEval msg),
               error_message := "Critic Error: " ++ msg }

/-- The four node identifiers of the workflow graph built by
`build_workflow`. -/
inductive Node where
  | coder
  | executor
  | critic
  | decision
  deriving DecidableEq, Repr

/-- The oracle of external outcomes for one run: for each pass `k`
through the cycle, the coder's model call, the sandbox execution, and
the critic's model call. -/
structure Oracle where
  coderCall : Nat → LLMResult
  execCall : Nat → ExecOutcome
  criticCall : Nat → CriticResult

/-- The cycle driver compiled by `build_workflow` (`main.py` lines
323-345): entry at `coder`, unconditional edges
`coder → executor → critic`, then the conditional edge routed by
`should_continue`, looping to `coder` on `"coder"` and terminating on
`"end"`. Returns the trace of states observed after each node runs.
`fuel` bounds the number of passes; `k` counts completed passes. -/
def workflowTrace (o : Oracle) : Nat → Nat → VisualizationState →
    List (Node × VisualizationState)
  | 0, _, _ => []
  | fuel + 1, k, s =>
      let s1 := coder_node (o.coderCall k) s
      let s2 := executor_node (o.execCall k) s1
      let s3 := critic_node (o.criticCall k) s2
      let d := should_continue s3
      (Node.coder, s1) :: (Node.executor, s2) :: (Node.critic, s3) ::
        (Node.decision, d.1) ::
        (if d.2 = "coder" then workflowTrace o fuel (k + 1) d.1 else [])

/-- The final state of a trace: the state at the last entry, or the
initial state when the trace is empty. -/
def finalStateOf (s0 : VisualizationState)
    (tr : List (Node × VisualizationState)) : VisualizationState :=
  match tr.getLast? with
  | some e => e.2
  | none => s0

/-- `run_visualization_workflow` from `main.py` (lines 352-373):
initialize the state and drive the compiled workflow, returning the
final state together with the trace of per-node states. -/
def run_visualization_workflow (o : Oracle) (fuel : Nat)
    (user_request dataset_url : String) (max_iterations : Nat) :
    VisualizationState × List (Node × VisualizationState) :=
  let init : VisualizationState :=
    { user_request := user_request, dataset_url := dataset_url,
      iteration := 0, max_iterations := max_iterations,
      generated_code := "", execution_result := none,
      critic_evaluation := none, final_viz_path := "",
      status := "in_progress", error_message := "" }
  let tr := workflowTrace o fuel 0 init
  (finalStateOf init tr, tr)

/-- Lifecycle status of a job in `jobs_store` (`api.py`). -/
inductive LifecycleStatus where
  | queued
  | processing
  | completed
  | failed
  | cancelled
  deriving DecidableEq, Repr

/-- A job record from `jobs_store` in `api.py` (the fields the
lifecycle operations touch). -/
structure Job where
  status : LifecycleStatus
  result : Option VisualizationState
  error : Option String
  deriving DecidableEq, Repr

/-- Outcome of the `cancel_job` endpoint on a stored job: an HTTP
rejection, or the updated job with the acknowledgement message. -/
inductive CancelOutcome where
  | rejected (code : Nat) (detail : String)
  | ok (j : Job) (msg : String)
  deriving DecidableEq, Repr

/-- `cancel_job` from `api.py` (lines 200-211), for a job present in
the store: reject with 400 when the status is `completed` or `failed`,
otherwise set the status to `cancelled`. -/
def cancel_job (j : Job) : CancelOutcome :=
  if j.status = .completed ∨ j.status = .failed then
    .rejected 400 "Cannot cancel completed job"
  else
    .ok { j with status := .cancelled } "cancelled"

/-- The start of `run_job` from `api.py` (line 261): the background
task marks the job `processing` before running the workflow. -/
def run_job_start (j : Job) : Job :=
  { j with status := .processing }

/-- The tail of `run_job` from `api.py` (lines 258-275): after
`run_visualization_workflow` returns (`Except.ok` with the final
workflow state) or raises (`Except.error` with the message), store the
result and set the lifecycle status — unconditionally `completed` on a
normal return, `failed` on an exception. -/
def run_job_finish (j : Job) (outcome : Except String VisualizationState) : Job :=
  match outcome with
  | .ok st => { j with result := some st, status := .completed }
  | .error e => { j with error := some e, status := .failed }

/-- Modelled from the spec: the spec's notion of a fenced code block
(§4.1 "a fenced block tagged as the target language" / "any fenced
block"), used only to compare the Code Extractor against the spec's
policy. A fenced block is an opening fence, an optional language tag on
the same line, a newline, the content, then a closing fence on its own
line; this returns the first such block's tag and content. -/
def spec_first_fenced_block (text : List Char) : Option (List Char × List Char) :=
  (splitAtSub "```".toList text).bind fun p =>
    (splitAtSub [Char.ofNat 10] p.2).bind fun q =>
      (splitAtSub closeFence q.2).map fun r => (q.1, r.1)

/-- A job in the `cancelled` lifecycle status, as left by `cancel_job`
on a queued or processing job. -/
def cancelledJob : Job :=
  { status := .cancelled, result := none, error := none }

/-- A final workflow state whose internal status is `"failed"`, as
produced by a run whose generation step raised. -/
def failedState : VisualizationState :=
  { user_request := "r", dataset_url := "u", iteration := 0,
    max_iterations := 5, generated_code := "",
    execution_result := none, critic_evaluation := none,
    final_viz_path := "", status := "failed",
    error_message := "Coder Agent Error: boom" }

/-- C1: the convergence policy emits `"end"` with status `"completed"`
iff the iteration budget is exhausted or the average score is at least 8
with a successful last execution; in every other case it emits
`"coder"`. -/
theorem should_continue_end_iff (s : VisualizationState) :
    (((should_continue s).2 = "end" ∧ (should_continue s).1.status = "completed")
      ↔ (s.max_iterations ≤ s.iteration ∨ (8 ≤ avgScoreOf s ∧ execSuccessOf s = true)))
    ∧ ((should_continue s).2 = "coder"
      ↔ ¬ (s.max_iterations ≤ s.iteration ∨ (8 ≤ avgScoreOf s ∧ execSuccessOf s = true))) := by
  unfold should_continue
  split_ifs with h1 h2 <;> simp_all

/-- C4: at the failing input — an execution that exceeds the timeout —
`execute_code_safely` returns the `"timeout"` result with the scratch
file still present (removal flag `false`), and likewise leaks the file
when the process fails to launch; the claim requires removal on every
exit path. -/
theorem execute_code_safely_leaks_scratch_file :
    (execute_code_safely ExecOutcome.timedOut).1.status = "timeout"
    ∧ (execute_code_safely ExecOutcome.timedOut).2 = false
    ∧ (execute_code_safely (ExecOutcome.launchError "boom")).2 = false := by
  decide

/-- C5: `execute_code_safely` always returns a well-formed
`ExecResult` (it is a total function into a record carrying status,
exit indicator, stdout and stderr), and its status is `"success"` iff
the process exited zero within the timeout, `"timeout"` iff the timeout
elapsed first, and `"error"` exactly for a non-zero exit or a failure
to launch. -/
theorem execute_code_safely_status_spec (o : ExecOutcome) :
    ((execute_code_safely o).1.status = "success" ↔ ∃ out err, o = .exited 0 out err)
    ∧ ((execute_code_safely o).1.status = "timeout" ↔ o = .timedOut)
    ∧ ((execute_code_safely o).1.status = "error" ↔
        ((∃ rc out err, o = .exited rc out err ∧ ¬ rc = 0) ∨ ∃ msg, o = .launchError msg)) := by
  cases o with
  | exited rc out err =>
      by_cases h : rc = 0 <;> simp [execute_code_safely, h]
  | timedOut => simp [execute_code_safely]
  | launchError msg => simp [execute_code_safely]

/-- C9 counterexample: `cancelled` is not terminal in the code. A job
whose status is `cancelled` has its status overwritten to `completed`
by the background task's completion handler, and `cancel_job` on an
already-cancelled (terminal) job is accepted rather than rejected. -/
theorem cancelled_not_terminal_cex :
    (run_job_finish cancelledJob (Except.ok failedState)).status = .completed
    ∧ ¬ LifecycleStatus.completed = .cancelled
    ∧ cancel_job cancelledJob = .ok cancelledJob "cancelled" := by
  decide

/-- C9 amended: `cancel_job` rejects exactly the `completed` and
`failed` statuses (so an already-cancelled job is cancelled again, not
rejected) and otherwise sets the status to `cancelled`; but `cancelled`
does not survive the background task: when the job's workflow task
finishes, `run_job_finish` overwrites any status — including
`cancelled` — with `completed` or `failed`. -/
theorem cancel_job_amended_spec :
    (∀ j : Job, (∃ c d, cancel_job j = .rejected c d)
        ↔ (j.status = .completed ∨ j.status = .failed))
    ∧ (∀ j : Job, ¬ (j.status = .completed ∨ j.status = .failed) →
        cancel_job j = .ok { j with status := .cancelled } "cancelled")
    ∧ (∀ (j : Job) (st : VisualizationState), j.status = .cancelled →
        (run_job_finish j (Except.ok st)).status = .completed)
    ∧ (∀ (j : Job) (e : String), j.status = .cancelled →
        (run_job_finish j (Except.error e)).status = .failed) := by
  refine ⟨fun j => ?_, fun j h => ?_, fun j st _ => ?_, fun j e _ => ?_⟩
  · unfold cancel_job
    split_ifs with h <;> simp [h]
  · simp [cancel_job, h]
  · simp [run_job_finish]
  · simp [run_job_finish]

/-- C9 amended, witness: cancelling a queued job is accepted and sets
the status to `cancelled`. -/
theorem cancel_job_amended_spec_witness :
    (¬ ((⟨.queued, none, none⟩ : Job).status = .completed
        ∨ (⟨.queued, none, none⟩ : Job).status = .failed))
    ∧ cancel_job ⟨.queued, none, none⟩ = .ok ⟨.cancelled, none, none⟩ "cancelled" :=
  ⟨by decide, cancel_job_amended_spec.2.1 ⟨.queued, none, none⟩ (by decide)⟩

/-- C10: when the background task's workflow run returns normally, the
job's lifecycle status is set to `completed` unconditionally — even
when the returned workflow state's own status is `"failed"` — so
lifecycle `completed` does not imply workflow success. -/
theorem run_job_finish_completed_despite_failed (j : Job) (st : VisualizationState)
    (h : st.status = "failed") :
    (run_job_finish j (Except.ok st)).status = .completed
    ∧ (run_job_finish j (Except.ok st)).result = some st := by
  simp [run_job_finish]

/-- C10 witness: a concrete job whose workflow ended with internal
status `"failed"` is nevertheless marked `completed`. -/
theorem run_job_finish_completed_despite_failed_witness :
    failedState.status = "failed"
    ∧ ((run_job_finish ⟨.processing, none, none⟩ (Except.ok failedState)).status = .completed
        ∧ (run_job_finish ⟨.processing, none, none⟩ (Except.ok failedState)).result
            = some failedState) :=
  ⟨by decide, run_job_finish_completed_despite_failed ⟨.processing, none, none⟩ failedState
    (by decide)⟩

/-- The span matched by the greedy brace regex is itself a
brace-delimited segment of the input: it occurs contiguously in the
text, starts with an opening brace and ends with a closing brace. -/
theorem greedyBraceSpan_shape (text sp : List Char)
    (h : greedyBraceSpan text = some sp) :
    sp ∈ segmentsOf text ∧ sp.head? = some lbrace ∧ sp.getLast? = some rbrace := by
  simp only [greedyBraceSpan] at h
  split at h
  · exact absurd h (by simp)
  · rename_i he
    injection h with h
    set s := text.dropWhile (fun c => ¬ c = lbrace) with hs
    set r := s.reverse.dropWhile (fun c => ¬ c = rbrace) with hr
    subst h
    have hrs : r <:+ s.reverse := hr ▸ List.dropWhile_suffix _
    have hts : r.reverse <+: s := by
      have := hrs.reverse
      rwa [List.reverse_reverse] at this
    have hst : s <:+ text := hs ▸ List.dropWhile_suffix _
    have hrne : ¬ r = [] := by
      intro hcon
      rw [hcon] at he
      simp at he
    refine ⟨?_, ?_, ?_⟩
    · simp only [segmentsOf, List.mem_flatten, List.mem_map]
      exact ⟨s.inits, ⟨s, (List.mem_tails s text).2 hst, rfl⟩,
        (List.mem_inits _ s).2 hts⟩
    · obtain ⟨x, r', hx⟩ : ∃ x r', r = r' ++ [x] := by
        rcases List.eq_nil_or_concat r with hc | ⟨r', x, hc⟩
        · exact absurd hc hrne
        · exact ⟨x, r', by simpa [List.concat_eq_append] using hc⟩
      obtain ⟨w, hw⟩ := hts
      have hsr : s = x :: (r'.reverse ++ w) := by
        rw [← hw, hx]
        simp
      have hhd : s.head? = some lbrace := by
        have hmatch := List.head?_dropWhile_not (fun c => ¬ c = lbrace) text
        rw [← hs, hsr] at hmatch
        rw [hsr]
        simp only [List.head?_cons] at hmatch ⊢
        simpa using hmatch
      rw [hx]
      simp only [List.reverse_append, List.reverse_cons, List.reverse_nil,
        List.nil_append, List.singleton_append, List.head?_cons]
      rw [hsr] at hhd
      simpa using hhd
    · rw [List.getLast?_reverse]
      have hmatch := List.head?_dropWhile_not (fun c => ¬ c = rbrace) s.reverse
      rw [← hr] at hmatch
      obtain ⟨y, r'', hy⟩ := List.exists_cons_of_ne_nil hrne
      rw [hy] at hmatch ⊢
      simp only [List.head?_cons] at hmatch ⊢
      simpa using hmatch

/-- C7: `parse_json_evaluation` is total (never raises), and whenever
no brace-delimited segment of the input parses as a JSON object, it
returns exactly the fixed fallback evaluation — all six scores 5,
average 5.0, approve false — never a partial structure. -/
theorem parse_json_evaluation_fallback {α : Type} (jp : List Char → Option α)
    (text : List Char)
    (h : ∀ sp ∈ segmentsOf text, sp.head? = some lbrace →
        sp.getLast? = some rbrace → jp sp = none) :
    parse_json_evaluation jp text = .fallback fallbackEvaluation
    ∧ fallbackEvaluation =
        { scores := { bugs := 5, transformation := 5, compliance := 5,
                      type := 5, encoding := 5, aesthetics := 5 },
          average_score := 5, feedback := "Unable to parse evaluation",
          approve := false } := by
  refine ⟨?_, rfl⟩
  unfold parse_json_evaluation
  cases hg : greedyBraceSpan text with
  | none => rfl
  | some sp =>
      obtain ⟨hm, hh, hl⟩ := greedyBraceSpan_shape text sp hg
      have hnone := h sp hm hh hl
      simp [hnone]

/-- C7 witness: on the input `"not json at all"` (with a parser that
accepts nothing, since no segment of that text is JSON), the parser
returns the fixed fallback. -/
theorem parse_json_evaluation_fallback_witness :
    (∀ sp ∈ segmentsOf ("not json at all".toList), sp.head? = some lbrace →
        sp.getLast? = some rbrace → (fun _ => (none : Option Nat)) sp = none)
    ∧ parse_json_evaluation (fun _ => (none : Option Nat)) ("not json at all".toList)
        = .fallback fallbackEvaluation :=
  ⟨fun _ _ _ _ => rfl,
    (parse_json_evaluation_fallback (fun _ => (none : Option Nat))
      ("not json at all".toList) (fun _ _ _ _ => rfl)).1⟩

/-- Soundness of first-occurrence splitting: a successful split really
decomposes the text around the pattern. -/
theorem splitAtSub_sound {pat t b a : List Char}
    (h : splitAtSub pat t = some (b, a)) : t = b ++ pat ++ a := by
  induction t generalizing b a with
  | nil =>
      rw [splitAtSub] at h
      by_cases hp : pat.isEmpty
      · rw [if_pos hp] at h
        injection h with h
        rw [Prod.mk.injEq] at h
        obtain ⟨rfl, rfl⟩ := h
        rw [List.isEmpty_iff] at hp
        simp [hp]
      · rw [if_neg hp] at h
        exact absurd h (by simp)
  | cons c cs ih =>
      rw [splitAtSub] at h
      by_cases hp : pat.isPrefixOf (c :: cs) = true
      · rw [if_pos hp] at h
        injection h with h
        rw [Prod.mk.injEq] at h
        obtain ⟨rfl, rfl⟩ := h
        have hpre := List.prefix_iff_eq_append.1 (List.isPrefixOf_iff_prefix.1 hp)
        simpa using hpre.symm
      · rw [if_neg hp] at h
        obtain ⟨p, hps, hfp⟩ := Option.map_eq_some'.1 h
        have hcs := ih (b := p.1) (a := p.2) (by rw [hps])
        have hfp' : (c :: p.1, p.2) = (b, a) := hfp
        rw [Prod.mk.injEq] at hfp'
        obtain ⟨rfl, rfl⟩ := hfp'
        simp [hcs]

/-- Completeness of first-occurrence splitting: when the pattern does
not occur in the text, the split fails. -/
theorem splitAtSub_eq_none {pat t : List Char} (h : ¬ pat <:+: t) :
    splitAtSub pat t = none := by
  cases hsp : splitAtSub pat t with
  | none => rfl
  | some p =>
      exact absurd ⟨p.1, p.2, (splitAtSub_sound (hsp.trans (by rw [Prod.mk.eta]))).symm⟩ h

/-- Splitting at a pattern that sits at the front of the text finds it
immediately. -/
theorem splitAtSub_append_self (pat rest : List Char) :
    splitAtSub pat (pat ++ rest) = some ([], rest) := by
  cases pat with
  | nil =>
      cases rest with
      | nil => rfl
      | cons c cs => simp [splitAtSub]
  | cons p ps =>
      rw [List.cons_append, splitAtSub,
        if_pos (List.isPrefixOf_iff_prefix.2 (by rw [← List.cons_append]; exact List.prefix_append _ rest))]
      rw [← List.cons_append, List.drop_left]

/-- The closing fence `"\n\x60\x60\x60"` cannot straddle the boundary of
`X ++ closeFence`: if it is a prefix of `c :: (X ++ closeFence)` then it
already occurs inside `c :: X`. (Its first character is a newline while
the rest are backticks, so no proper overlap with its own start is
possible.) -/
theorem closeFence_no_straddle (c : Char) (X : List Char)
    (h : closeFence <+: c :: (X ++ closeFence)) : closeFence <:+: c :: X := by
  have hcf : closeFence = [Char.ofNat 10, Char.ofNat 96, Char.ofNat 96, Char.ofNat 96] := by
    decide
  match X with
  | [] =>
      rw [hcf] at h
      simp +decide [List.cons_prefix_cons] at h
  | [a] =>
      rw [hcf] at h
      simp +decide [List.cons_prefix_cons] at h
  | [a, b] =>
      rw [hcf] at h
      simp +decide [List.cons_prefix_cons] at h
  | a :: b :: d :: X' =>
      rw [hcf] at h ⊢
      simp only [List.cons_append, List.cons_prefix_cons] at h
      obtain ⟨rfl, rfl, rfl, rfl, -⟩ := h
      exact ⟨[], X', by simp⟩

/-- When the content `X` does not itself contain a closing fence, the
first occurrence of the closing fence in `X ++ closeFence` is the final
one. -/
theorem splitAtSub_closeFence_append (X : List Char) (h : ¬ closeFence <:+: X) :
    splitAtSub closeFence (X ++ closeFence) = some (X, []) := by
  induction X with
  | nil => simpa using splitAtSub_append_self closeFence []
  | cons c X' ih =>
      have hnp : ¬ closeFence.isPrefixOf (c :: (X' ++ closeFence)) = true := by
        intro hp
        exact h (closeFence_no_straddle c X' (List.isPrefixOf_iff_prefix.1 hp))
      rw [List.cons_append, splitAtSub, if_neg hnp,
        ih (fun hin => h (hin.trans ⟨[c], [], by simp⟩))]
      rfl

/-- C8 counterexample: the extractor does not honour clause (b) of the
claimed policy for tagged non-python fences. The text
`"\x60\x60\x60js\\na\\n\x60\x60\x60"` contains exactly one fenced block
(tag `js`, content `"a"`), yet `extract_code_block` returns the whole
text unchanged instead of the block's contents. -/
theorem extract_code_block_policy_cex :
    spec_first_fenced_block ("```js\na\n```".toList)
        = some ("js".toList, "a".toList)
    ∧ extract_code_block ("```js\na\n```".toList) = "```js\na\n```".toList
    ∧ ¬ ("```js\na\n```".toList = "a".toList) := by
  decide

/-- C8 amended: the extractor recognises only python-tagged fences and
untagged fences. (i) For text that is exactly one python-tagged fenced
block whose content does not contain a closing fence, extraction
returns exactly the content, with no whitespace change; (ii) the same
round-trip holds for an untagged fenced block when the text contains no
python-tagged opener; (iii) text containing no backtick at all is
returned unchanged. -/
theorem extract_code_block_amended_spec :
    (∀ X : List Char, ¬ closeFence <:+: X →
        extract_code_block (pyOpen ++ X ++ closeFence) = X)
    ∧ (∀ X : List Char, ¬ closeFence <:+: X →
        ¬ pyOpen <:+: (genOpen ++ X ++ closeFence) →
        extract_code_block (genOpen ++ X ++ closeFence) = X)
    ∧ (∀ t : List Char, ¬ Char.ofNat 96 ∈ t → extract_code_block t = t) := by
  refine ⟨fun X hX => ?_, fun X hX hpy => ?_, fun t hbt => ?_⟩
  · unfold extract_code_block matchFence
    rw [List.append_assoc, splitAtSub_append_self]
    simp only [Option.some_bind]
    rw [splitAtSub_closeFence_append X hX]
    rfl
  · unfold extract_code_block matchFence
    rw [splitAtSub_eq_none hpy]
    simp only [Option.none_bind]
    rw [List.append_assoc, splitAtSub_append_self]
    simp only [Option.some_bind]
    rw [splitAtSub_closeFence_append X hX]
    rfl
  · unfold extract_code_block matchFence
    have hpy : splitAtSub pyOpen t = none :=
      splitAtSub_eq_none (fun hin => hbt (hin.subset (by decide)))
    have hgen : splitAtSub genOpen t = none :=
      splitAtSub_eq_none (fun hin => hbt (hin.subset (by decide)))
    rw [hpy, hgen]
    rfl

/-- C8 amended, witness: a python-tagged block with content `"x = 5"`
round-trips exactly. -/
theorem extract_code_block_amended_spec_witness :
    (¬ closeFence <:+: ("x = 5".toList))
    ∧ extract_code_block (pyOpen ++ "x = 5".toList ++ closeFence) = "x = 5".toList :=
  ⟨by decide, extract_code_block_amended_spec.1 ("x = 5".toList) (by decide)⟩

/-- The generation node either increments `iteration` by one (model
call succeeded) or leaves it unchanged (model call raised), and never
touches `max_iterations`. -/
theorem coder_node_iteration (r : LLMResult) (s : VisualizationState) :
    ((coder_node r s).iteration = s.iteration + 1 ∨ (coder_node r s).iteration = s.iteration)
    ∧ (coder_node r s).max_iterations = s.max_iterations := by
  cases r <;> simp [coder_node]

/-- The executor node touches neither `iteration` nor
`max_iterations`. -/
theorem executor_node_preserves (o : ExecOutcome) (s : VisualizationState) :
    (executor_node o s).iteration = s.iteration
    ∧ (executor_node o s).max_iterations = s.max_iterations := by
  simp only [executor_node]
  split_ifs <;> simp

/-- The critic node touches neither `iteration` nor
`max_iterations`. -/
theorem critic_node_preserves (r : CriticResult) (s : VisualizationState) :
    (critic_node r s).iteration = s.iteration
    ∧ (critic_node r s).max_iterations = s.max_iterations := by
  cases r <;> simp [critic_node]

/-- The decision node touches neither `iteration` nor
`max_iterations`. -/
theorem should_continue_preserves (s : VisualizationState) :
    (should_continue s).1.iteration = s.iteration
    ∧ (should_continue s).1.max_iterations = s.max_iterations := by
  unfold should_continue
  split_ifs <;> simp

/-- When the decision node routes back to the coder it leaves the state
untouched, and the iteration budget is strictly unexhausted. -/
theorem should_continue_coder_lt (s : VisualizationState)
    (h : (should_continue s).2 = "coder") :
    (should_continue s).1 = s ∧ s.iteration < s.max_iterations := by
  unfold should_continue at h ⊢
  split_ifs at h ⊢ with h1 h2
  · simp at h
  · simp at h
  · exact ⟨rfl, Nat.lt_of_not_le h1⟩

/-- Loop invariant of the cycle driver: started below the iteration
budget, every state observed after any node run satisfies
`iteration ≤ max_iterations`. -/
theorem workflowTrace_invariant (o : Oracle) :
    ∀ (fuel k : Nat) (s : VisualizationState), s.iteration < s.max_iterations →
    ∀ e ∈ workflowTrace o fuel k s, e.2.iteration ≤ e.2.max_iterations := by
  intro fuel
  induction fuel with
  | zero =>
      intro k s _ e he
      simp [workflowTrace] at he
  | succ n ih =>
      intro k s hlt e he
      simp only [workflowTrace] at he
      set s1 := coder_node (o.coderCall k) s with hs1
      set s2 := executor_node (o.execCall k) s1 with hs2
      set s3 := critic_node (o.criticCall k) s2 with hs3
      have h1 : s1.iteration ≤ s1.max_iterations := by
        obtain ⟨hit, hmax⟩ := coder_node_iteration (o.coderCall k) s
        rw [← hs1] at hit hmax
        rcases hit with hit | hit
        · rw [hit, hmax]
          exact Nat.succ_le_of_lt hlt
        · rw [hit, hmax]
          exact Nat.le_of_lt hlt
      have h2it : s2.iteration = s1.iteration ∧ s2.max_iterations = s1.max_iterations := by
        have := executor_node_preserves (o.execCall k) s1
        rwa [← hs2] at this
      have h3it : s3.iteration = s1.iteration ∧ s3.max_iterations = s1.max_iterations := by
        have := critic_node_preserves (o.criticCall k) s2
        rw [← hs3] at this
        exact ⟨this.1.trans h2it.1, this.2.trans h2it.2⟩
      have h3 : s3.iteration ≤ s3.max_iterations := by
        rw [h3it.1, h3it.2]
        exact h1
      have h4 : (should_continue s3).1.iteration ≤ (should_continue s3).1.max_iterations := by
        obtain ⟨hit, hmax⟩ := should_continue_preserves s3
        rw [hit, hmax]
        exact h3
      simp only [List.mem_cons] at he
      rcases he with rfl | rfl | rfl | rfl | he
      · exact h1
      · rw [h2it.1, h2it.2]
        exact h1
      · exact h3
      · exact h4
      · by_cases hc : (should_continue s3).2 = "coder"
        · rw [if_pos hc] at he
          obtain ⟨heq, hltn⟩ := should_continue_coder_lt s3 hc
          refine ih (k + 1) (should_continue s3).1 ?_ e he
          rw [heq]
          exact hltn
        · rw [if_neg hc] at he
          simp at he

/-- C2: for every run started at iteration 0 with a positive budget,
`iteration ≤ max_iterations` holds after every node of the trace; the
generation step increments `iteration` exactly once per successful
pass; and the convergence policy routes back to the coder only while
strictly below the budget. -/
theorem workflow_iteration_le_max :
    (∀ (o : Oracle) (fuel : Nat) (req url : String) (m : Nat), 0 < m →
      ∀ e ∈ (run_visualization_workflow o fuel req url m).2,
        e.2.iteration ≤ e.2.max_iterations)
    ∧ (∀ (t : String) (s : VisualizationState),
        (coder_node (.ok t) s).iteration = s.iteration + 1)
    ∧ (∀ s : VisualizationState, (should_continue s).2 = "coder" →
        s.iteration < s.max_iterations) := by
  refine ⟨fun o fuel req url m hm e he => ?_, fun t s => rfl,
    fun s h => (should_continue_coder_lt s h).2⟩
  simp only [run_visualization_workflow] at he
  exact workflowTrace_invariant o fuel 0 _ (by simpa using hm) e he

/-- An oracle under which the run converges at the first pass. -/
def demoOracle : Oracle where
  coderCall := fun _ => .ok "print(1)"
  execCall := fun _ => .exited 0 "" ""
  criticCall := fun _ =>
    .ok { average_score := some 9, feedback := none, approve := some true }

/-- C2 witness: a concrete run with budget 1 keeps
`iteration ≤ max_iterations` at every entry of its trace. -/
theorem workflow_iteration_le_max_witness :
    0 < 1
    ∧ ∀ e ∈ (run_visualization_workflow demoOracle 3 "req" "url" 1).2,
        e.2.iteration ≤ e.2.max_iterations :=
  ⟨by decide, workflow_iteration_le_max.1 demoOracle 3 "req" "url" 1 (by decide)⟩

/-- An oracle whose first coder call succeeds with a mediocre
evaluation and whose second coder call raises, while the old code still
executes successfully and the critic then scores 9. -/
def cexOracle : Oracle where
  coderCall := fun k => if k = 0 then .ok "print(1)" else .err "boom"
  execCall := fun _ => .exited 0 "" ""
  criticCall := fun k =>
    if k = 0 then .ok { average_score := some 5, feedback := none, approve := some false }
    else .ok { average_score := some 9, feedback := none, approve := some true }

/-- C3 counterexample: a run in which the second pass's generation step
fails (trace entry 4 is the coder with status `"failed"`), yet the
executor still runs right after it (entry 5), and the final state's
status has been overwritten to `"completed"` — so the cycle does not
terminate on generation failure and `status` does change again after
leaving `in_progress`. -/
theorem coder_failure_not_short_circuited_cex :
    (((run_visualization_workflow cexOracle 5 "req" "url" 5).2[4]?).map
        (fun e => (e.1, e.2.status)) = some (Node.coder, "failed"))
    ∧ (((run_visualization_workflow cexOracle 5 "req" "url" 5).2[5]?).map
        (fun e => e.1) = some Node.executor)
    ∧ (run_visualization_workflow cexOracle 5 "req" "url" 5).1.status = "completed" := by
  decide

/-- C3 amended: the workflow engine does not short-circuit on a failed
generation step. Whatever the coder node did — including setting
`status = "failed"` — the executor, critic and decision nodes still run
on that state in the same pass. -/
theorem coder_failure_then_executor_runs (o : Oracle) (fuel k : Nat)
    (s : VisualizationState)
    (hfail : (coder_node (o.coderCall k) s).status = "failed") :
    ∃ rest,
      workflowTrace o (fuel + 1) k s =
        (Node.coder, coder_node (o.coderCall k) s)
        :: (Node.executor, executor_node (o.execCall k) (coder_node (o.coderCall k) s))
        :: (Node.critic, critic_node (o.criticCall k)
              (executor_node (o.execCall k) (coder_node (o.coderCall k) s)))
        :: (Node.decision, (should_continue (critic_node (o.criticCall k)
              (executor_node (o.execCall k) (coder_node (o.coderCall k) s)))).1)
        :: rest := by
  refine ⟨if (should_continue (critic_node (o.criticCall k)
        (executor_node (o.execCall k) (coder_node (o.coderCall k) s)))).2 = "coder"
      then workflowTrace o fuel (k + 1) (should_continue (critic_node (o.criticCall k)
        (executor_node (o.execCall k) (coder_node (o.coderCall k) s)))).1
      else [], ?_⟩
  simp only [workflowTrace]

/-- C3 amended, witness: with the oracle whose second coder call
raises, the failed coder state is followed in the trace by the executor,
critic and decision nodes. -/
theorem coder_failure_then_executor_runs_witness :
    (coder_node (cexOracle.coderCall 1) failedState).status = "failed"
    ∧ ∃ rest,
        workflowTrace cexOracle 1 1 failedState =
          (Node.coder, coder_node (cexOracle.coderCall 1) failedState)
          :: (Node.executor, executor_node (cexOracle.execCall 1)
                (coder_node (cexOracle.coderCall 1) failedState))
          :: (Node.critic, critic_node (cexOracle.criticCall 1)
                (executor_node (cexOracle.execCall 1)
                  (coder_node (cexOracle.coderCall 1) failedState)))
          :: (Node.decision, (should_continue (critic_node (cexOracle.criticCall 1)
                (executor_node (cexOracle.execCall 1)
                  (coder_node (cexOracle.coderCall 1) failedState)))).1)
          :: rest :=
  ⟨by decide, coder_failure_then_executor_runs cexOracle 0 1 failedState (by decide)⟩

end MultiAgent
